import Mathlib

set_option maxRecDepth 100000

/-!
Verification of the Ack wire codec (`wire/msgack.go` of FactomCode).

The Go code is shallowly embedded: bytes are `Nat` values below 256, byte
buffers are `List Nat`, Go machine integers are `Nat` with explicit range
facts, and every operation that can abort at runtime (an out-of-range slice
or a nil-pointer dereference, i.e. a Go panic) returns `GoResult.crash`
instead of a value.  Fallible operations that return a Go `error` would use
`GoResult.ok`/an error value; in this file every reachable error branch of
the source is modelled explicitly.
-/

namespace Wire

/-- Result of running a piece of Go code: either a value, or a runtime
abort (`crash` models a Go panic such as a slice bounds violation or a nil
dereference, which is not a returned `error`). -/
inductive GoResult (α : Type) where
  | ok : α → GoResult α
  | crash : GoResult α
deriving DecidableEq

/-- Sequencing of Go steps: once crashed, always crashed. -/
def GoResult.bind {α β : Type} : GoResult α → (α → GoResult β) → GoResult β
  | .ok a, f => f a
  | .crash, _ => .crash

/-- Ack type constants, `msgack.go` lines 19-39 (Go `iota`). -/
def AckFactoidTx : Nat := 0

def EndMinute1 : Nat := 1

def EndMinute2 : Nat := 2

def EndMinute3 : Nat := 3

def EndMinute4 : Nat := 4

def EndMinute5 : Nat := 5

def EndMinute6 : Nat := 6

def EndMinute7 : Nat := 7

def EndMinute8 : Nat := 8

def EndMinute9 : Nat := 9

def EndMinute10 : Nat := 10

def AckRevealEntry : Nat := 11

def AckCommitChain : Nat := 12

def AckRevealChain : Nat := 13

def AckCommitEntry : Nat := 14

def EndMinute : Nat := 15

def NonEndMinute : Nat := 16

def Unknown : Nat := 17

/-- Modelled from the spec: `common.Hash`, the 32-byte canonical identifier
type consumed from a collaborator (spec section 6); its source is not under
`src/`.  It supports binary marshal/unmarshal, value equality and a
zero-value constructor. -/
structure Hash where
  bytes : List Nat
deriving DecidableEq

/-- Modelled from the spec: `wire.ShaHash`, the 32-byte hash type used for
the affirmation field; its source is not under `src/`. -/
structure ShaHash where
  bytes : List Nat
deriving DecidableEq

/-- Modelled from the spec: `common.NewHash()`, the zero-value constructor
of the 32-byte identifier. -/
def NewHash : Hash := ⟨List.replicate 32 0⟩

/-- Modelled from the spec: `Hash.MarshalBinary`, the canonical binary form
of the 32-byte identifier; marshalling a 32-byte value cannot fail. -/
def Hash.MarshalBinary (h : Hash) : List Nat := h.bytes

/-- The Go struct `MsgAck` (`msgack.go` lines 43-55).  Pointer fields
(`ChainID *common.Hash`, `Affirmation *ShaHash`) are `Option`, with `none`
for a nil pointer.  The source field `Type` is named `AckType` here because
`Type` is reserved in Lean.  Go strings are byte lists. -/
structure MsgAck where
  Height : Nat
  ChainID : Option Hash
  Index : Nat
  AckType : Nat
  DBlockTimestamp : Nat
  CoinbaseTimestamp : Nat
  Affirmation : Option ShaHash
  SerialHash : List Nat
  Signature : List Nat
  SourceNodeID : List Nat
  SourceAddr : List Nat
deriving DecidableEq

/-- The states representable by the Go struct type: `uint32`/`uint64`/`byte`
ranges for the scalars, fixed lengths for the `[32]byte`/`[64]byte` arrays
and the 32-byte hash objects, and byte-valued list elements. -/
def isByteList (l : List Nat) : Bool := l.all (fun b => b < 256)

/-- Modelled typing of a possibly-nil 32-byte hash object. -/
def hashOk : Option Hash → Bool
  | none => true
  | some c => (c.bytes.length == 32) && isByteList c.bytes

/-- Modelled typing of a possibly-nil 32-byte sha hash object. -/
def shaOk : Option ShaHash → Bool
  | none => true
  | some a => (a.bytes.length == 32) && isByteList a.bytes

/-- Well-formedness: exactly the constraints the Go type system imposes on
a `MsgAck` value. -/
abbrev WellFormed (m : MsgAck) : Prop :=
  m.Height < 4294967296 ∧ m.Index < 4294967296 ∧ m.AckType < 256 ∧
  m.DBlockTimestamp < 4294967296 ∧ m.CoinbaseTimestamp < 18446744073709551616 ∧
  hashOk m.ChainID = true ∧ shaOk m.Affirmation = true ∧
  m.SerialHash.length = 32 ∧ isByteList m.SerialHash = true ∧
  m.Signature.length = 64 ∧ isByteList m.Signature = true ∧
  isByteList m.SourceNodeID = true ∧ isByteList m.SourceAddr = true

/-- Big-endian value of a byte list (`binary.BigEndian.Uint32`/`Uint64`
applied to the bytes read). -/
def beUint (l : List Nat) : Nat := l.foldl (fun acc b => acc * 256 + b) 0

/-- The four big-endian bytes `binary.Write(&buf, binary.BigEndian, v)`
emits for a `uint32`. -/
def putUint32 (n : Nat) : List Nat :=
  [n / 16777216 % 256, n / 65536 % 256, n / 256 % 256, n % 256]

/-- The eight big-endian bytes `binary.Write(&buf, binary.BigEndian, v)`
emits for a `uint64`. -/
def putUint64 (n : Nat) : List Nat :=
  [n / 72057594037927936 % 256, n / 281474976710656 % 256,
   n / 1099511627776 % 256, n / 4294967296 % 256,
   n / 16777216 % 256, n / 65536 % 256, n / 256 % 256, n % 256]

/-- Go slicing `data[:n], data[n:]`: panics (crashes) when `n` exceeds the
length, otherwise yields the first `n` bytes and the rest. -/
def readBytes (n : Nat) (data : List Nat) : GoResult (List Nat × List Nat) :=
  if n ≤ data.length then .ok (data.take n, data.drop n) else .crash

/-- Go indexing `data[0], data[1:]`: panics (crashes) on an empty slice. -/
def readByte : List Nat → GoResult (Nat × List Nat)
  | [] => .crash
  | b :: rest => .ok (b, rest)

/-- Modelled from the spec: `Hash.UnmarshalBinaryData`, which consumes the
32-byte canonical binary form from the front of a buffer and returns the
remainder (spec section 6); its source is not under `src/`.  On a shorter
buffer it aborts like the rest of the legacy cursor parsing. -/
def Hash.UnmarshalBinaryData (data : List Nat) : GoResult (Hash × List Nat) :=
  (readBytes 32 data).bind fun p => .ok (⟨p.1⟩, p.2)

/-- `GetBinaryForSignature` (`msgack.go` lines 70-91): the signable prefix.
Writes height, the chainID bytes when the pointer is non-nil (a nil chainID
is silently skipped by the `if msg.ChainID != nil` guard), index, type,
both timestamps, affirmation, serial hash and the two length-prefixed
strings.  The signature field is never written.  Dereferencing a nil
affirmation (line 84) is a runtime crash. -/
def GetBinaryForSignature (m : MsgAck) : GoResult (List Nat) :=
  match m.Affirmation with
  | none => .crash
  | some a => .ok
      (putUint32 m.Height ++
      ((match m.ChainID with | none => [] | some c => c.MarshalBinary) ++
      (putUint32 m.Index ++
      (m.AckType ::
      (putUint32 m.DBlockTimestamp ++
      (putUint64 m.CoinbaseTimestamp ++
      (a.bytes ++
      (m.SerialHash ++
      ((m.SourceNodeID.length % 256) ::
      (m.SourceNodeID ++
      ((m.SourceAddr.length % 256) ::
      m.SourceAddr)))))))))))

/-- `Sign` (`msgack.go` lines 58-65): derives the signable prefix and stores
the 64-byte signature the signing primitive produces over it.  The signing
primitive (spec section 6: private key plus byte sequence to 64-byte
signature) is a parameter, as its source is not under `src/`.  The error
return of `GetBinaryForSignature` is propagated, but in the model the only
failure of prefix derivation is the nil-affirmation crash. -/
def Sign (sigPrim : List Nat → List Nat) (m : MsgAck) : GoResult MsgAck :=
  (GetBinaryForSignature m).bind fun bs =>
    .ok { m with Signature := sigPrim bs }

/-- `MsgEncode` (`msgack.go` lines 127-144): serializes height, chainID,
index, type, both timestamps, affirmation, serial hash, signature, then the
two length-prefixed strings.  `msg.ChainID.Bytes()` (line 130) and
`msg.Affirmation.Bytes()` (line 135) dereference the pointers, so a nil
chainID or affirmation crashes.  The length prefix is `byte(len(s))`, i.e.
the length reduced mod 256. -/
def MsgEncode (m : MsgAck) : GoResult (List Nat) :=
  match m.ChainID, m.Affirmation with
  | some c, some a => .ok
      (putUint32 m.Height ++
      (c.bytes ++
      (putUint32 m.Index ++
      (m.AckType ::
      (putUint32 m.DBlockTimestamp ++
      (putUint64 m.CoinbaseTimestamp ++
      (a.bytes ++
      (m.SerialHash ++
      (m.Signature ++
      ((m.SourceNodeID.length % 256) ::
      (m.SourceNodeID ++
      ((m.SourceAddr.length % 256) ::
      m.SourceAddr))))))))))))
  | _, _ => .crash

/-- `MsgDecode` (`msgack.go` lines 94-124): reads the whole buffer and
consumes it front to back with unchecked slicing; each read is `readBytes`
or `readByte`, which crash exactly where the Go slicing panics.  Reads, in
order: 4 height bytes, 32 chainID bytes (via `Hash.UnmarshalBinaryData`,
its error ignored), 4 index bytes, the type byte, 4 + 8 timestamp bytes,
32 affirmation bytes, 32 serial-hash bytes, 64 signature bytes, a length
byte and that many sourceNodeID bytes, a length byte and that many
sourceAddr bytes.  Any bytes left after the sourceAddr are ignored and the
function returns nil (success). -/
def MsgDecode (data : List Nat) : GoResult MsgAck :=
  (readBytes 4 data).bind fun p1 =>
  (Hash.UnmarshalBinaryData p1.2).bind fun p2 =>
  (readBytes 4 p2.2).bind fun p3 =>
  (readByte p3.2).bind fun p4 =>
  (readBytes 4 p4.2).bind fun p5 =>
  (readBytes 8 p5.2).bind fun p6 =>
  (readBytes 32 p6.2).bind fun p7 =>
  (readBytes 32 p7.2).bind fun p8 =>
  (readBytes 64 p8.2).bind fun p9 =>
  (readByte p9.2).bind fun p10 =>
  (readBytes p10.1 p10.2).bind fun p11 =>
  (readByte p11.2).bind fun p12 =>
  (readBytes p12.1 p12.2).bind fun p13 =>
  .ok { Height := beUint p1.1, ChainID := some p2.1, Index := beUint p3.1,
        AckType := p4.1, DBlockTimestamp := beUint p5.1,
        CoinbaseTimestamp := beUint p6.1, Affirmation := some ⟨p7.1⟩,
        SerialHash := p8.1, Signature := p9.1,
        SourceNodeID := p11.1, SourceAddr := p13.1 }

/-- `MaxPayloadLength` (`msgack.go` lines 154-156): returns the constant
300 for every protocol version. -/
def MaxPayloadLength (pver : Nat) : Nat := 300

/-- `Clone` (`msgack.go` lines 189-201): builds a new struct listing only
Height, ChainID, Index, DBlockTimestamp, CoinbaseTimestamp, Affirmation,
Type, SourceNodeID and SourceAddr; the omitted `SerialHash` and `Signature`
fields get the Go zero value (all-zero arrays). -/
def Clone (m : MsgAck) : MsgAck :=
  { Height := m.Height, ChainID := m.ChainID, Index := m.Index,
    DBlockTimestamp := m.DBlockTimestamp,
    CoinbaseTimestamp := m.CoinbaseTimestamp,
    Affirmation := m.Affirmation, AckType := m.AckType,
    SourceNodeID := m.SourceNodeID, SourceAddr := m.SourceAddr,
    SerialHash := List.replicate 32 0, Signature := List.replicate 64 0 }

/-- `IsEomAck` (`msgack.go` lines 204-209). -/
def IsEomAck (m : MsgAck) : Bool :=
  if EndMinute1 ≤ m.AckType ∧ m.AckType ≤ EndMinute10 then true else false

/-- Modelled from the spec: `ShaHash.IsEqual`, value comparison of the
affirmation hashes (spec section 4.1: affirmation compared by value); its
source is not under `src/`. -/
def ShaHash.IsEqual (x y : Option ShaHash) : Bool := decide (x = y)

/-- Modelled from the spec: `Hash.IsSameAs`, value comparison of the chainID
identifiers (spec section 4.1: chainID compared by value); its source is not
under `src/`. -/
def Hash.IsSameAs (x y : Option Hash) : Bool := decide (x = y)

/-- `Equals` (`msgack.go` lines 212-224). -/
def Equals (m a : MsgAck) : Bool :=
  decide (m.Height = a.Height) &&
  decide (m.Index = a.Index) &&
  decide (m.AckType = a.AckType) &&
  decide (m.DBlockTimestamp = a.DBlockTimestamp) &&
  decide (m.CoinbaseTimestamp = a.CoinbaseTimestamp) &&
  ShaHash.IsEqual m.Affirmation a.Affirmation &&
  Hash.IsSameAs m.ChainID a.ChainID &&
  decide (m.SerialHash = a.SerialHash) &&
  decide (m.Signature = a.Signature) &&
  decide (m.SourceNodeID = a.SourceNodeID) &&
  decide (m.SourceAddr = a.SourceAddr)

/-- `NewMsgAck` (`msgack.go` lines 160-177): fresh zero chainID placeholder,
affirmation defaulted to the zero hash when nil, serial hash and signature
left at the zero value. -/
def NewMsgAck (height index : Nat) (affirm : Option ShaHash) (ackType : Nat)
    (timestamp coinbaseTS : Nat) (sid addr : List Nat) : MsgAck :=
  { Height := height, ChainID := some NewHash, Index := index,
    DBlockTimestamp := timestamp, CoinbaseTimestamp := coinbaseTS,
    Affirmation := some (affirm.getD ⟨List.replicate 32 0⟩),
    AckType := ackType, SourceNodeID := sid, SourceAddr := addr,
    SerialHash := List.replicate 32 0, Signature := List.replicate 64 0 }

/-! Concrete sample values used by witnesses and counterexamples. -/

/-- The all-zero 32-byte identifier. -/
def zeroHash : Hash := ⟨List.replicate 32 0⟩

/-- The all-zero 32-byte sha hash. -/
def zeroSha : ShaHash := ⟨List.replicate 32 0⟩

/-- A concrete signing primitive for witnesses: constant 64-byte output. -/
def sigConst : List Nat → List Nat := fun _ => List.replicate 64 9

/-- A message whose chainID pointer is nil but whose affirmation is set. -/
def ackNoChain : MsgAck :=
  ⟨0, none, 0, 0, 0, 0, some zeroSha,
   List.replicate 32 0, List.replicate 64 0, [], []⟩

/-- A message whose affirmation pointer is nil. -/
def ackNoAff : MsgAck :=
  ⟨0, some zeroHash, 0, 0, 0, 0, none,
   List.replicate 32 0, List.replicate 64 0, [], []⟩

/-- A fully populated valid message (sourceNodeID is the two bytes of
"l1", sourceAddr empty). -/
def ack1 : MsgAck :=
  ⟨7, some ⟨List.replicate 32 1⟩, 3, 11, 1000, 5000, some ⟨List.replicate 32 2⟩,
   List.replicate 32 3, List.replicate 64 4, [108, 49], []⟩

/-- A valid message with a nonzero signature. -/
def ackSigA : MsgAck :=
  ⟨1, some zeroHash, 2, 3, 4, 5, some zeroSha,
   List.replicate 32 0, List.replicate 64 7, [97], [98]⟩

/-- The same message with a different signature. -/
def ackSigB : MsgAck := { ackSigA with Signature := List.replicate 64 8 }

/-- A message with nonzero serial hash and signature. -/
def ackSerial : MsgAck :=
  ⟨0, some zeroHash, 0, 0, 0, 0, some zeroSha,
   List.replicate 32 5, List.replicate 64 6, [], []⟩

/-- A message with both strings at the 255-byte maximum. -/
def ackMax : MsgAck :=
  ⟨0, some zeroHash, 0, 0, 0, 0, some zeroSha,
   List.replicate 32 0, List.replicate 64 0,
   List.replicate 255 97, List.replicate 255 98⟩

/-- A message whose sourceNodeID is 256 bytes long (one past the
single-length-byte maximum). -/
def ackLong : MsgAck :=
  ⟨0, some zeroHash, 0, 0, 0, 0, some zeroSha,
   List.replicate 32 0, List.replicate 64 0,
   List.replicate 256 97, []⟩

/-- A buffer holding the full 181-byte fixed part followed by a length byte
claiming 200 sourceNodeID bytes that are not there. -/
def bufShortTail : List Nat := List.replicate 181 0 ++ [200]

/-- A 183-byte buffer whose type byte (offset 40) is the sentinel value 15
(`EndMinute`). -/
def bufType15 : List Nat := List.replicate 40 0 ++ (15 :: List.replicate 142 0)

/-- The message `bufType15` decodes to. -/
def ackType15 : MsgAck :=
  ⟨0, some zeroHash, 0, 15, 0, 0, some zeroSha,
   List.replicate 32 0, List.replicate 64 0, [], []⟩

/-- The minimal 183-byte all-zero buffer. -/
def sampleBuf : List Nat := List.replicate 183 0

/-- The message `sampleBuf` decodes to. -/
def ackZero : MsgAck :=
  ⟨0, some zeroHash, 0, 0, 0, 0, some zeroSha,
   List.replicate 32 0, List.replicate 64 0, [], []⟩

/-! Helper lemmas. -/

theorem bind_ok {α β : Type} (a : α) (f : α → GoResult β) :
    (GoResult.ok a).bind f = f a := rfl

theorem bind_crash {α β : Type} (f : α → GoResult β) :
    (GoResult.crash : GoResult α).bind f = .crash := rfl

theorem take_append_le (n : Nat) (l r : List Nat) (h : n ≤ l.length) :
    (l ++ r).take n = l.take n := by
  induction l generalizing n with
  | nil =>
    have h0 : n = 0 := Nat.le_zero.mp h
    subst h0; rfl
  | cons a t ih =>
    cases n with
    | zero => rfl
    | succ k =>
      have hk : k ≤ t.length := by simp at h; omega
      simp only [List.cons_append, List.take_succ_cons, ih k hk]

theorem drop_append_le (n : Nat) (l r : List Nat) (h : n ≤ l.length) :
    (l ++ r).drop n = l.drop n ++ r := by
  induction l generalizing n with
  | nil =>
    have h0 : n = 0 := Nat.le_zero.mp h
    subst h0; rfl
  | cons a t ih =>
    cases n with
    | zero => rfl
    | succ k =>
      have hk : k ≤ t.length := by simp at h; omega
      simp only [List.cons_append, List.drop_succ_cons, ih k hk]

theorem readBytes_chunk (n : Nat) (l r : List Nat) (h : l.length = n) :
    readBytes n (l ++ r) = .ok (l, r) := by
  subst h
  unfold readBytes
  rw [if_pos (by simp)]
  rw [take_append_le _ _ _ (Nat.le_refl _), drop_append_le _ _ _ (Nat.le_refl _)]
  simp

theorem readBytes_all (l : List Nat) : readBytes l.length l = .ok (l, []) := by
  unfold readBytes
  rw [if_pos (Nat.le_refl _)]
  simp

theorem beUint_put32 (n : Nat) (h : n < 4294967296) :
    beUint (putUint32 n) = n := by
  simp only [beUint, putUint32, List.foldl]
  omega

theorem beUint_put64 (n : Nat) (h : n < 18446744073709551616) :
    beUint (putUint64 n) = n := by
  simp only [beUint, putUint64, List.foldl]
  omega

theorem hash_mk_bytes (h : Hash) : Hash.mk h.bytes = h := rfl

theorem shaHash_mk_bytes (h : ShaHash) : ShaHash.mk h.bytes = h := rfl

theorem equals_refl (m : MsgAck) : Equals m m = true := by
  simp [Equals, ShaHash.IsEqual, Hash.IsSameAs]

/-- Evaluation of `MsgDecode` on a buffer laid out exactly as `MsgEncode`
lays it out, with abstract chunks of the right sizes. -/
theorem MsgDecode_chunks (h4 c4 i4 : List Nat) (t : Nat) (d4 c8 aff ser sig : List Nat)
    (node addr : List Nat)
    (hh : h4.length = 4) (hc : c4.length = 32) (hi : i4.length = 4)
    (hd : d4.length = 4) (hc8 : c8.length = 8) (haf : aff.length = 32)
    (hs : ser.length = 32) (hg : sig.length = 64)
    (hn : node.length ≤ 255) (ha : addr.length ≤ 255) :
    MsgDecode (h4 ++ (c4 ++ (i4 ++ (t :: (d4 ++ (c8 ++ (aff ++ (ser ++ (sig ++
      ((node.length % 256) :: (node ++ ((addr.length % 256) :: addr)))))))))))) =
    GoResult.ok ⟨beUint h4, some ⟨c4⟩, beUint i4, t, beUint d4, beUint c8,
      some ⟨aff⟩, ser, sig, node, addr⟩ := by
  unfold MsgDecode Hash.UnmarshalBinaryData
  rw [readBytes_chunk 4 h4 _ hh]
  dsimp only [GoResult.bind]
  rw [readBytes_chunk 32 c4 _ hc]
  dsimp only [GoResult.bind]
  rw [readBytes_chunk 4 i4 _ hi]
  dsimp only [GoResult.bind, readByte]
  rw [readBytes_chunk 4 d4 _ hd]
  dsimp only [GoResult.bind]
  rw [readBytes_chunk 8 c8 _ hc8]
  dsimp only [GoResult.bind]
  rw [readBytes_chunk 32 aff _ haf]
  dsimp only [GoResult.bind]
  rw [readBytes_chunk 32 ser _ hs]
  dsimp only [GoResult.bind]
  rw [readBytes_chunk 64 sig _ hg]
  dsimp only [GoResult.bind, readByte]
  rw [Nat.mod_eq_of_lt (Nat.lt_succ_of_le hn)]
  rw [readBytes_chunk node.length node _ rfl]
  dsimp only [GoResult.bind, readByte]
  rw [Nat.mod_eq_of_lt (Nat.lt_succ_of_le ha)]
  rw [readBytes_all addr]

/-! Claim theorems. -/

/-- Claim C2: the claim says a buffer shorter than the 181-byte fixed prefix,
or one whose declared string length exceeds the remaining bytes, makes
MsgDecode return a structured error and never abort.  The code instead
slices without bounds checks and aborts (Go runtime panic) in both cases:
on the empty buffer, and on a buffer carrying the full fixed prefix plus a
length byte claiming 200 absent string bytes. -/
theorem decode_short_buffer_aborts :
    MsgDecode [] = GoResult.crash ∧ MsgDecode bufShortTail = GoResult.crash := by
  decide

/-- Claim C3: two messages that agree on every field except the signature
produce identical signable prefixes; GetBinaryForSignature never reads the
signature field. -/
theorem signable_prefix_ignores_signature (m1 m2 : MsgAck)
    (hh : m1.Height = m2.Height) (hc : m1.ChainID = m2.ChainID)
    (hi : m1.Index = m2.Index) (ht : m1.AckType = m2.AckType)
    (hd : m1.DBlockTimestamp = m2.DBlockTimestamp)
    (hb : m1.CoinbaseTimestamp = m2.CoinbaseTimestamp)
    (ha : m1.Affirmation = m2.Affirmation)
    (hs : m1.SerialHash = m2.SerialHash)
    (hn : m1.SourceNodeID = m2.SourceNodeID)
    (hr : m1.SourceAddr = m2.SourceAddr) :
    GetBinaryForSignature m1 = GetBinaryForSignature m2 := by
  unfold GetBinaryForSignature
  rw [hh, hc, hi, ht, hd, hb, ha, hs, hn, hr]

/-- Witness for C3: two concrete messages that differ exactly in the
signature have the same signable prefix. -/
theorem signable_prefix_ignores_signature_witness :
    ackSigA.Signature ≠ ackSigB.Signature ∧
    GetBinaryForSignature ackSigA = GetBinaryForSignature ackSigB :=
  ⟨by decide,
   signable_prefix_ignores_signature ackSigA ackSigB
     rfl rfl rfl rfl rfl rfl rfl rfl rfl rfl⟩

/-- Claim C4 counterexample: the claim says Sign on a message whose chainID
is not populated reports a failure.  On a concrete message with a nil
chainID and a populated affirmation, Sign succeeds and stores the signature
produced over the chainID-less prefix. -/
theorem sign_missing_chain_succeeds :
    Sign sigConst ackNoChain =
      GoResult.ok { ackNoChain with Signature := List.replicate 64 9 } := by
  decide

/-- Claim C4 as amended: Sign does not report a missing chainID: the
`if msg.ChainID != nil` guard makes GetBinaryForSignature silently omit the
chainID bytes, and Sign succeeds over the incomplete prefix; a nil
affirmation makes Sign abort (nil-pointer dereference), not return an
error. -/
theorem sign_without_required_fields (sigPrim : List Nat → List Nat) (m : MsgAck) :
    (m.ChainID = none → m.Affirmation ≠ none →
      ∃ m2, Sign sigPrim m = GoResult.ok m2) ∧
    (m.Affirmation = none → Sign sigPrim m = GoResult.crash) := by
  constructor
  · intro _ ha
    obtain ⟨a, hax⟩ : ∃ a, m.Affirmation = some a := by
      cases hx : m.Affirmation with
      | none => exact absurd hx ha
      | some a => exact ⟨a, rfl⟩
    unfold Sign GetBinaryForSignature
    rw [hax]
    exact ⟨_, rfl⟩
  · intro ha
    unfold Sign GetBinaryForSignature
    rw [ha]
    rfl

/-- Witness for the amended C4, at the concrete messages with nil chainID
and with nil affirmation. -/
theorem sign_without_required_fields_witness :
    (ackNoChain.ChainID = none ∧ ackNoChain.Affirmation ≠ none ∧
      ∃ m2, Sign sigConst ackNoChain = GoResult.ok m2) ∧
    (ackNoAff.Affirmation = none ∧ Sign sigConst ackNoAff = GoResult.crash) :=
  ⟨⟨rfl, by decide,
    (sign_without_required_fields sigConst ackNoChain).1 rfl (by decide)⟩,
   ⟨rfl, (sign_without_required_fields sigConst ackNoAff).2 rfl⟩⟩

/-- Claim C5: the claim says Clone copies the fixed arrays including
serialHash and signature, and that Clone(m) Equals m.  The code omits both
fields from the copied struct literal, leaving them zero-valued, so on a
message with nonzero serial hash and signature the clone does not Equal the
original. -/
theorem clone_drops_serial_and_signature :
    (Clone ackSerial).SerialHash = List.replicate 32 0 ∧
    (Clone ackSerial).Signature = List.replicate 64 0 ∧
    ackSerial.SerialHash = List.replicate 32 5 ∧
    Equals (Clone ackSerial) ackSerial = false := by
  decide

/-- Claim C6: the claim says MaxPayloadLength is at least 693.  The encoding
of the worst-case valid message (both strings at 255 bytes) is exactly 693
bytes, but MaxPayloadLength returns 300 for every protocol version. -/
theorem max_payload_too_small :
    (∃ enc, MsgEncode ackMax = GoResult.ok enc ∧ enc.length = 693) ∧
    MaxPayloadLength 1 = 300 :=
  ⟨⟨_, rfl, by decide⟩, rfl⟩

/-- Claim C7: the claim says MsgEncode fails or truncates when a string is
longer than 255 bytes.  On a message with a 256-byte sourceNodeID the code
succeeds and emits a frame whose length byte is 256 mod 256 = 0 followed by
all 256 string bytes (and then the sourceAddr length byte 0): a corrupt
frame. -/
theorem encode_long_string_corrupts :
    ∃ enc, MsgEncode ackLong = GoResult.ok enc ∧
      enc.drop 181 = 0 :: (List.replicate 256 97 ++ [0]) :=
  ⟨_, rfl, by decide⟩

/-- Claim C8: the claim says no successful MsgDecode yields a sentinel type
(EndMinute, NonEndMinute, Unknown).  The decoder copies the type byte with
no validation: a buffer whose type byte is 15 decodes successfully to a
message whose type is the EndMinute sentinel. -/
theorem decode_accepts_sentinel_type :
    MsgDecode bufType15 = GoResult.ok ackType15 ∧ ackType15.AckType = EndMinute :=
  ⟨by decide, rfl⟩

/-- Claim C9: IsEomAck is true exactly when the type is one of EndMinute1
through EndMinute10, i.e. between 1 and 10, and false for every other
value; it reads nothing but the type field. -/
theorem isEomAck_iff (m : MsgAck) :
    IsEomAck m = true ↔ (1 ≤ m.AckType ∧ m.AckType ≤ 10) := by
  unfold IsEomAck EndMinute1 EndMinute10
  split
  · rename_i h
    simpa using h
  · rename_i h
    simpa using h

/-- Claim C1: for every valid AckMessage (a value of the Go struct type with
non-nil chainID and affirmation and with sourceNodeID and sourceAddr each at
most 255 bytes), decoding the bytes produced by MsgEncode succeeds and
yields a message equal to the original under Equals. -/
theorem ack_roundtrip (m : MsgAck) (hwf : WellFormed m)
    (hcn : m.ChainID ≠ none) (han : m.Affirmation ≠ none)
    (hn : m.SourceNodeID.length ≤ 255) (hr : m.SourceAddr.length ≤ 255) :
    ∃ enc m2, MsgEncode m = GoResult.ok enc ∧ MsgDecode enc = GoResult.ok m2 ∧
      Equals m2 m = true := by
  obtain ⟨hH, hI, hT, hD, hB, hco, hao, hsl, hsb, hgl, hgb, hnby, haby⟩ := hwf
  obtain ⟨c, hc⟩ : ∃ c, m.ChainID = some c := by
    cases hx : m.ChainID with
    | none => exact absurd hx hcn
    | some c => exact ⟨c, rfl⟩
  obtain ⟨a, ha⟩ : ∃ a, m.Affirmation = some a := by
    cases hx : m.Affirmation with
    | none => exact absurd hx han
    | some a => exact ⟨a, rfl⟩
  have hcl : c.bytes.length = 32 := by
    rw [hc] at hco
    simp [hashOk] at hco
    exact hco.1
  have hal : a.bytes.length = 32 := by
    rw [ha] at hao
    simp [shaOk] at hao
    exact hao.1
  have henc : MsgEncode m = GoResult.ok
      (putUint32 m.Height ++ (c.bytes ++ (putUint32 m.Index ++ (m.AckType ::
       (putUint32 m.DBlockTimestamp ++ (putUint64 m.CoinbaseTimestamp ++
       (a.bytes ++ (m.SerialHash ++ (m.Signature ++
       ((m.SourceNodeID.length % 256) :: (m.SourceNodeID ++
       ((m.SourceAddr.length % 256) :: m.SourceAddr)))))))))))) := by
    unfold MsgEncode
    rw [hc, ha]
  have hdec := MsgDecode_chunks (putUint32 m.Height) c.bytes (putUint32 m.Index)
      m.AckType (putUint32 m.DBlockTimestamp) (putUint64 m.CoinbaseTimestamp)
      a.bytes m.SerialHash m.Signature m.SourceNodeID m.SourceAddr
      rfl hcl rfl rfl rfl hal hsl hgl hn hr
  rw [beUint_put32 _ hH, beUint_put32 _ hI, beUint_put32 _ hD,
      beUint_put64 _ hB, hash_mk_bytes, shaHash_mk_bytes, ← hc, ← ha] at hdec
  exact ⟨_, m, henc, hdec, equals_refl m⟩

/-- Witness for C1: a concrete fully populated valid message satisfies all
the hypotheses and round-trips. -/
theorem ack_roundtrip_witness :
    (WellFormed ack1 ∧ ack1.ChainID ≠ none ∧ ack1.Affirmation ≠ none ∧
      ack1.SourceNodeID.length ≤ 255 ∧ ack1.SourceAddr.length ≤ 255) ∧
    (∃ enc m2, MsgEncode ack1 = GoResult.ok enc ∧
      MsgDecode enc = GoResult.ok m2 ∧ Equals m2 ack1 = true) :=
  ⟨⟨by decide, by decide, by decide, by decide, by decide⟩,
   ack_roundtrip ack1 (by decide) (by decide) (by decide) (by decide) (by decide)⟩

theorem readBytes_mono {n : Nat} {d x r : List Nat} (s : List Nat)
    (h : readBytes n d = GoResult.ok (x, r)) :
    readBytes n (d ++ s) = GoResult.ok (x, r ++ s) := by
  unfold readBytes at h ⊢
  by_cases hle : n ≤ d.length
  · rw [if_pos hle] at h
    injection h with h1
    injection h1 with hx hr
    subst hx
    subst hr
    rw [if_pos (by simp; omega)]
    rw [take_append_le n d s hle, drop_append_le n d s hle]
  · rw [if_neg hle] at h
    simp at h

theorem readByte_mono {d : List Nat} {b : Nat} {r : List Nat} (s : List Nat)
    (h : readByte d = GoResult.ok (b, r)) :
    readByte (d ++ s) = GoResult.ok (b, r ++ s) := by
  cases d with
  | nil => simp [readByte] at h
  | cons a t =>
    simp only [readByte] at h
    injection h with h1
    injection h1 with hb hr
    subst hb
    subst hr
    rfl

theorem unmarshal_mono {d : List Nat} {c : Hash} {r : List Nat} (s : List Nat)
    (h : Hash.UnmarshalBinaryData d = GoResult.ok (c, r)) :
    Hash.UnmarshalBinaryData (d ++ s) = GoResult.ok (c, r ++ s) := by
  unfold Hash.UnmarshalBinaryData at h ⊢
  cases e : readBytes 32 d with
  | crash => rw [e] at h; simp [GoResult.bind] at h
  | ok p =>
    obtain ⟨x, rest⟩ := p
    rw [e] at h
    dsimp only [GoResult.bind] at h
    injection h with h1
    injection h1 with hc hr
    subst hc
    subst hr
    rw [readBytes_mono s e]
    rfl

/-- Claim C10: MsgDecode ignores any bytes after the final sourceAddr
field: when a buffer decodes successfully, appending any suffix leaves the
decode successful with the same message, never an error. -/
theorem decode_ignores_trailing (b s : List Nat) (m : MsgAck)
    (h : MsgDecode b = GoResult.ok m) : MsgDecode (b ++ s) = GoResult.ok m := by
  unfold MsgDecode at h ⊢
  cases e1 : readBytes 4 b with
  | crash => rw [e1] at h; simp [GoResult.bind] at h
  | ok p1 =>
    obtain ⟨x1, r1⟩ := p1
    rw [e1] at h
    rw [readBytes_mono s e1]
    dsimp only [GoResult.bind] at h ⊢
    cases e2 : Hash.UnmarshalBinaryData r1 with
    | crash => rw [e2] at h; simp [GoResult.bind] at h
    | ok p2 =>
      obtain ⟨x2, r2⟩ := p2
      rw [e2] at h
      rw [unmarshal_mono s e2]
      dsimp only [GoResult.bind] at h ⊢
      cases e3 : readBytes 4 r2 with
      | crash => rw [e3] at h; simp [GoResult.bind] at h
      | ok p3 =>
        obtain ⟨x3, r3⟩ := p3
        rw [e3] at h
        rw [readBytes_mono s e3]
        dsimp only [GoResult.bind] at h ⊢
        cases e4 : readByte r3 with
        | crash => rw [e4] at h; simp [GoResult.bind] at h
        | ok p4 =>
          obtain ⟨x4, r4⟩ := p4
          rw [e4] at h
          rw [readByte_mono s e4]
          dsimp only [GoResult.bind] at h ⊢
          cases e5 : readBytes 4 r4 with
          | crash => rw [e5] at h; simp [GoResult.bind] at h
          | ok p5 =>
            obtain ⟨x5, r5⟩ := p5
            rw [e5] at h
            rw [readBytes_mono s e5]
            dsimp only [GoResult.bind] at h ⊢
            cases e6 : readBytes 8 r5 with
            | crash => rw [e6] at h; simp [GoResult.bind] at h
            | ok p6 =>
              obtain ⟨x6, r6⟩ := p6
              rw [e6] at h
              rw [readBytes_mono s e6]
              dsimp only [GoResult.bind] at h ⊢
              cases e7 : readBytes 32 r6 with
              | crash => rw [e7] at h; simp [GoResult.bind] at h
              | ok p7 =>
                obtain ⟨x7, r7⟩ := p7
                rw [e7] at h
                rw [readBytes_mono s e7]
                dsimp only [GoResult.bind] at h ⊢
                cases e8 : readBytes 32 r7 with
                | crash => rw [e8] at h; simp [GoResult.bind] at h
                | ok p8 =>
                  obtain ⟨x8, r8⟩ := p8
                  rw [e8] at h
                  rw [readBytes_mono s e8]
                  dsimp only [GoResult.bind] at h ⊢
                  cases e9 : readBytes 64 r8 with
                  | crash => rw [e9] at h; simp [GoResult.bind] at h
                  | ok p9 =>
                    obtain ⟨x9, r9⟩ := p9
                    rw [e9] at h
                    rw [readBytes_mono s e9]
                    dsimp only [GoResult.bind] at h ⊢
                    cases e10 : readByte r9 with
                    | crash => rw [e10] at h; simp [GoResult.bind] at h
                    | ok p10 =>
                      obtain ⟨x10, r10⟩ := p10
                      rw [e10] at h
                      rw [readByte_mono s e10]
                      dsimp only [GoResult.bind] at h ⊢
                      cases e11 : readBytes x10 r10 with
                      | crash => rw [e11] at h; simp [GoResult.bind] at h
                      | ok p11 =>
                        obtain ⟨x11, r11⟩ := p11
                        rw [e11] at h
                        rw [readBytes_mono s e11]
                        dsimp only [GoResult.bind] at h ⊢
                        cases e12 : readByte r11 with
                        | crash => rw [e12] at h; simp [GoResult.bind] at h
                        | ok p12 =>
                          obtain ⟨x12, r12⟩ := p12
                          rw [e12] at h
                          rw [readByte_mono s e12]
                          dsimp only [GoResult.bind] at h ⊢
                          cases e13 : readBytes x12 r12 with
                          | crash => rw [e13] at h; simp [GoResult.bind] at h
                          | ok p13 =>
                            obtain ⟨x13, r13⟩ := p13
                            rw [e13] at h
                            rw [readBytes_mono s e13]
                            dsimp only [GoResult.bind] at h ⊢
                            exact h

/-- Witness for C10: the minimal all-zero buffer decodes to the zero
message, and still does after appending a trailing byte. -/
theorem decode_ignores_trailing_witness :
    MsgDecode sampleBuf = GoResult.ok ackZero ∧
    MsgDecode (sampleBuf ++ [7]) = GoResult.ok ackZero :=
  ⟨by decide, decode_ignores_trailing sampleBuf [7] ackZero (by decide)⟩

end Wire
